import Mathlib

/-!
Shallow embedding of the gofs HTTP file server (repository ahdekkers/gofs).
The embedding follows the richer route-layout variant of the server (the one
with the response cache and the noCache / noDirs flags), whose handlers are
`getFile`, `uploadFile`, `getEntries`, together with the in-repository archive
codec `unzipToDir` and the construction path `Create` / `checkIsDir` /
`createLogWriter`.

Modelling conventions:
- the host filesystem is a finite association list from path components to
  nodes (directory or file with byte contents); the filesystem root `[]`
  always exists as a directory;
- paths handled by the server are Go strings; `goFilepathJoin` / `goClean`
  model Go's `filepath.Join` / `filepath.Clean` (unix separators), and
  `beforeLastSlash` models the `path[:strings.LastIndex(path, "/")]` slice,
  returning `none` exactly when `LastIndex` is `-1` and the Go slice
  expression panics;
- I/O failures that depend on the environment rather than on the modelled
  filesystem state (disk-full write errors, permission bits, a network read
  failing mid-request) are not modelled; fallible operations return the
  partially-updated filesystem plus an optional error message, matching the
  no-rollback behaviour of the Go code;
- log calls are recorded as (level, message) events; HTTP responses are
  recorded as the list of writes the handler performs, in order (the gin
  framework keeps the status of the first write, later writes append body
  bytes only).
-/

namespace Gofs

abbrev Bytes := List Nat

abbrev Comps := List String

/-- Split a string at every slash character, keeping empty fields,
like Go's strings.Split(s, "/") restricted to the separator "/". -/
def splitCharsSlash : List Char → List Char → List (List Char)
  | [], acc => [acc.reverse]
  | c :: rest, acc =>
    if c = '/' then acc.reverse :: splitCharsSlash rest []
    else splitCharsSlash rest (c :: acc)

def splitSlash (s : String) : List String :=
  (splitCharsSlash s.data []).map String.mk

def isRooted (s : String) : Bool :=
  match s.data with
  | c :: _ => c = '/'
  | [] => false

def dotString : String := "."

def dotDotString : String := ".."

/-- The element stack built by Go's filepath.Clean: empty and dot elements are
dropped, a dotdot element pops a previous real element, cannot escape the
root of a rooted path, and accumulates at the front of a relative path.
The stack is kept in reverse order. -/
def cleanStack (rooted : Bool) : List String → List String → List String
  | [], stack => stack.reverse
  | c :: rest, stack =>
    if c = "" ∨ c = dotString then cleanStack rooted rest stack
    else if c = dotDotString then
      match stack with
      | [] =>
        if rooted then cleanStack rooted rest []
        else cleanStack rooted rest [dotDotString]
      | top :: stackTail =>
        if top = dotDotString then cleanStack rooted rest (dotDotString :: top :: stackTail)
        else cleanStack rooted rest stackTail
    else cleanStack rooted rest (c :: stack)

def joinComps : List String → String
  | [] => ""
  | [c] => c
  | c :: rest => c ++ "/" ++ joinComps rest

/-- Go filepath.Clean for unix separators. -/
def goClean (s : String) : String :=
  let rooted := isRooted s
  let body := joinComps (cleanStack rooted (splitSlash s) [])
  if rooted then "/" ++ body
  else if body = "" then dotString else body

/-- Go filepath.Join on two elements: empty elements are ignored, the
remaining elements are joined with a slash and cleaned. -/
def goFilepathJoin (a b : String) : String :=
  if a = "" then (if b = "" then "" else goClean b)
  else goClean (a ++ "/" ++ b)

/-- The characters strictly before the last slash of `s`, or `none` when `s`
contains no slash: Go's `s[:strings.LastIndex(s, "/")]`, whose slice bound is
`-1` (a runtime panic) exactly in the `none` case. -/
def beforeLastSlash (s : String) : Option String :=
  match s.data.reverse.dropWhile (fun c => ¬ c = '/') with
  | [] => none
  | _ :: rest => some (String.mk rest.reverse)

/-- Go filepath.Split: the directory part of the path, up to and including
the final slash (empty when the path has no slash). -/
def goFilepathSplitDir (s : String) : String :=
  match s.data.reverse.dropWhile (fun c => ¬ c = '/') with
  | [] => ""
  | l => String.mk l.reverse

/-- Path components used to address the modelled filesystem: slash fields of
the (already cleaned) path string, with empty and dot fields dropped. -/
def compsOf (s : String) : Comps :=
  (splitSlash s).filter (fun c => ¬ (c = "" ∨ c = dotString))

inductive FsNode
  | dir
  | file (data : Bytes)
deriving DecidableEq, Repr

structure FS where
  entries : List (Comps × FsNode)
deriving DecidableEq, Repr

def FS.nodeAt (fs : FS) (p : Comps) : Option FsNode :=
  if p = [] then some FsNode.dir
  else (fs.entries.find? (fun e => e.1 = p)).map (fun e => e.2)

def isFileNode : Option FsNode → Bool
  | some (FsNode.file _) => true
  | _ => false

/-- All nonempty prefixes of a component path, shallowest first. -/
def allPrefixes (p : Comps) : List Comps :=
  (List.range p.length).map (fun i => p.take (i + 1))

/-- All nonempty proper prefixes of a component path, shallowest first. -/
def properPrefixes (p : Comps) : List Comps :=
  (List.range (p.length - 1)).map (fun i => p.take (i + 1))

inductive StatErr
  | notExist
  | notDir
deriving DecidableEq, Repr

/-- os.Stat on a component path: ENOTDIR when a proper prefix is a regular
file, ENOENT when the node is absent, otherwise the node. -/
def FS.stat (fs : FS) (p : Comps) : Except StatErr FsNode :=
  if (properPrefixes p).any (fun q => isFileNode (fs.nodeAt q)) then Except.error StatErr.notDir
  else
    match fs.nodeAt p with
    | some n => Except.ok n
    | none => Except.error StatErr.notExist

def errNoSuchFile : String := ": no such file or directory"

def errNotADir : String := ": not a directory"

def errIsADir : String := ": is a directory"

/-- The text of the error returned by os.Stat for the modelled error kinds. -/
def statErrString (path : String) : StatErr → String
  | StatErr.notExist => "stat " ++ path ++ errNoSuchFile
  | StatErr.notDir => "stat " ++ path ++ errNotADir

/-- os.Stat on a path string: the empty path fails with ENOENT, any other
path is resolved through its components. -/
def goStat (fs : FS) (s : String) : Except StatErr FsNode :=
  if s = "" then Except.error StatErr.notExist
  else fs.stat (compsOf s)

def FS.insert (fs : FS) (p : Comps) (n : FsNode) : FS :=
  ⟨(p, n) :: fs.entries.filter (fun e => ¬ e.1 = p)⟩

/-- One level of os.MkdirAll: an existing directory is kept, an existing
regular file is an error, an absent node becomes a directory. -/
def FS.mkdirOne (fs : FS) (q : Comps) : FS × Option String :=
  match fs.nodeAt q with
  | some FsNode.dir => (fs, none)
  | some (FsNode.file _) => (fs, some ("mkdir " ++ joinComps q ++ errNotADir))
  | none => (⟨(q, FsNode.dir) :: fs.entries⟩, none)

def FS.mkdirAllComps (fs : FS) : List Comps → FS × Option String
  | [] => (fs, none)
  | q :: rest =>
    match fs.mkdirOne q with
    | (fs1, none) => fs1.mkdirAllComps rest
    | (fs1, some e) => (fs1, some e)

/-- os.MkdirAll on a path string: creates every missing prefix of the path as
a directory, shallowest first, stopping at the first prefix that exists as a
regular file.  The empty path fails as in Go; a path whose components are all
empty or dot (such as "/" or ".") is an existing directory. -/
def goMkdirAll (fs : FS) (s : String) : FS × Option String :=
  let p := compsOf s
  if p = [] then
    if s = "" then (fs, some ("mkdir " ++ errNoSuchFile)) else (fs, none)
  else fs.mkdirAllComps (allPrefixes p)

/-- os.OpenFile with O_CREATE, O_TRUNC and O_RDWR followed by a full write of
`data`: requires the parent to be an existing directory and the target to not
be a directory; creates or truncates the target file.  Environment-dependent
write failures (the separate write error branch of the Go code) are not
modelled. -/
def goWriteNewFile (fs : FS) (s : String) (data : Bytes) : FS × Option String :=
  let p := compsOf s
  if p = [] then (fs, some ("open " ++ s ++ errIsADir))
  else if ¬ (fs.nodeAt p.dropLast = some FsNode.dir) then
    (fs, some ("open " ++ s ++ errNoSuchFile))
  else
    match fs.nodeAt p with
    | some FsNode.dir => (fs, some ("open " ++ s ++ errIsADir))
    | _ => (fs.insert p (FsNode.file data), none)

/-- os.OpenFile with O_CREATE, O_APPEND and O_RDWR: opens an existing regular
file or creates an empty one under an existing parent directory. -/
def goOpenAppendCreate (fs : FS) (s : String) : FS × Option String :=
  let p := compsOf s
  if p = [] then (fs, some ("open " ++ s ++ errIsADir))
  else if ¬ (fs.nodeAt p.dropLast = some FsNode.dir) then
    (fs, some ("open " ++ s ++ errNoSuchFile))
  else
    match fs.nodeAt p with
    | some FsNode.dir => (fs, some ("open " ++ s ++ errIsADir))
    | some (FsNode.file _) => (fs, none)
    | none => (fs.insert p (FsNode.file []), none)

/-- The names of the immediate children of directory `p`, in entry-list
order (Go's os.ReadDir sorts by name; no claim depends on the order). -/
def FS.childNames (fs : FS) (p : Comps) : List String :=
  fs.entries.filterMap (fun e => if e.1.dropLast = p then e.1.getLast? else none)

def FS.readDir (fs : FS) (p : Comps) : Except StatErr (List String) :=
  match fs.stat p with
  | Except.error e => Except.error e
  | Except.ok (FsNode.file _) => Except.error StatErr.notDir
  | Except.ok FsNode.dir => Except.ok (fs.childNames p)

inductive Level
  | debug
  | info
  | warn
deriving DecidableEq, Repr

structure LogEvent where
  level : Level
  msg : String
deriving DecidableEq, Repr

/-- One body write performed through the gin context: ctx.Data carries a
content type and raw bytes, ctx.String carries formatted text. -/
inductive RespBody
  | bytes (ctype : String) (b : Bytes)
  | text (s : String)
deriving DecidableEq, Repr

structure RespWrite where
  status : Nat
  body : RespBody
deriving DecidableEq, Repr

abbrev Cache := List (String × Bytes)

def cacheLookup (c : Cache) (k : String) : Option Bytes :=
  (c.find? (fun e => e.1 = k)).map (fun e => e.2)

def cacheInsert (c : Cache) (k : String) (v : Bytes) : Cache :=
  (k, v) :: c.filter (fun e => ¬ e.1 = k)

def cacheKeys (c : Cache) : List String :=
  c.map (fun e => e.1)

structure Server where
  rootDir : String
  cache : Cache
  noCache : Bool
  noDirs : Bool
deriving DecidableEq, Repr

/-- The transient record used while unpacking an archive: an entry name
relative to the archive root and its byte payload (type File in the source). -/
structure File where
  name : String
  data : Bytes
deriving DecidableEq, Repr

/-- The request body of a zip upload as seen through zip.NewReader and the
per-entry read loop: either the bytes fail to parse as an archive (with the
underlying error text), or they yield a list of entries. -/
inductive ZipData
  | malformed (err : String)
  | entries (files : List File)
deriving DecidableEq, Repr

def ctypeZip : String := "application/zip"

def ctypeRaw : String := "raw"

def msgRecvGet : String := "Received get file request"

def msgCacheHit : String := "Retrieved file data from cache"

def msgFailedReadWarn : String := "Failed to read file data"

def msgNoDirsGetWarn : String := "Path \x27%s\x27 is a directory and noDirs flag is true"

def msgFailedZipWarn : String := "Failed to zip dir"

def msgDirServed : String := "Successfully returned directory as zip"

def msgFileServed : String := "Successfully returned file as raw data"

def msgRecvUpload : String := "Received upload file request"

def msgNoDirsUpload : String := "Content type is application/zip but noDirs flag is set to true"

def msgFailedUnzipWarn : String := "Failed to unzip upload file request data"

def msgFailedMkdirWarn : String := "Failed to create dirs"

def msgFailedOpenWarn : String := "Failed to create/truncate file during upload file request"

def msgUploadOk : String := "File data successfully uploaded"

def msgEntriesOk : String := "Successfully processed entries request"

def msgEntriesWarn : String := "Failed to get entries in directory"

def failedReadBody (path : String) (e : StatErr) : String :=
  "Failed to read file at \x27" ++ path ++ "\x27: " ++ statErrString path e

def noDirsGetBody (path : String) : String :=
  "Path \x27" ++ path ++ "\x27 is a directory and noDirs flag is true"

def failedZipBody (path err : String) : String :=
  "Failed to zip dir \x27" ++ path ++ "\x27: " ++ err

def successUploadBody (path : String) : String :=
  "Successfully wrote data to \x27" ++ path ++ "\x27"

def failedMkdirBody (dir err : String) : String :=
  "Failed to make dirs \x27" ++ dir ++ "\x27: " ++ err

def failedOpenBody (path err : String) : String :=
  "Failed to open file \x27" ++ path ++ "\x27: " ++ err

def failedEntriesBody (path err : String) : String :=
  "Failed to read directory \x27" ++ path ++ "\x27: " ++ err

def unzipOpenErr (path err : String) : String :=
  "Failed to open or create file \x27" ++ path ++ "\x27: " ++ err

def unzipMkdirErr (dir err : String) : String :=
  "failed to make dirs \x27" ++ dir ++ "\x27: " ++ err

def unzipReadErr (err : String) : String :=
  "Failed to read zip data: " ++ err

def dbgGet : LogEvent := ⟨Level.debug, msgRecvGet⟩

def dbgUpload : LogEvent := ⟨Level.debug, msgRecvUpload⟩

/-- Result of one getFile request: the single response write, the log events
in order, the cache after the request, and how many os.Stat, file-read and
archive-codec calls the handler performed. -/
structure GetResult where
  status : Nat
  body : RespBody
  logs : List LogEvent
  cache : Cache
  statCalls : Nat
  readCalls : Nat
  codecCalls : Nat
deriving DecidableEq, Repr

/-- The getFile handler after the cache check: stat, then serve a zipped
directory or the raw file, storing the served bytes in the cache on success
when caching is enabled.  `zb` is the archive codec zipdir.ZipToBytes. -/
def getFileDisk (zb : FS → String → Except String Bytes) (s : Server) (fs : FS)
    (path : String) : GetResult :=
  match goStat fs path with
  | Except.error e =>
    { status := 400, body := RespBody.text (failedReadBody path e),
      logs := [dbgGet, ⟨Level.warn, msgFailedReadWarn⟩], cache := s.cache,
      statCalls := 1, readCalls := 0, codecCalls := 0 }
  | Except.ok FsNode.dir =>
    if s.noDirs then
      { status := 400, body := RespBody.text (noDirsGetBody path),
        logs := [dbgGet, ⟨Level.warn, msgNoDirsGetWarn⟩], cache := s.cache,
        statCalls := 1, readCalls := 0, codecCalls := 0 }
    else
      match zb fs path with
      | Except.error e =>
        { status := 400, body := RespBody.text (failedZipBody path e),
          logs := [dbgGet, ⟨Level.warn, msgFailedZipWarn⟩], cache := s.cache,
          statCalls := 1, readCalls := 0, codecCalls := 1 }
      | Except.ok data =>
        { status := 200, body := RespBody.bytes ctypeZip data,
          logs := [dbgGet, ⟨Level.info, msgDirServed⟩],
          cache := if s.noCache then s.cache else cacheInsert s.cache path data,
          statCalls := 1, readCalls := 0, codecCalls := 1 }
  | Except.ok (FsNode.file data) =>
    { status := 200, body := RespBody.bytes ctypeRaw data,
      logs := [dbgGet, ⟨Level.info, msgFileServed⟩],
      cache := if s.noCache then s.cache else cacheInsert s.cache path data,
      statCalls := 1, readCalls := 1, codecCalls := 0 }

/-- The getFile handler: resolve the path under the root directory, serve a
cache hit as application/zip bytes when caching is enabled, otherwise go to
disk. -/
def getFile (zb : FS → String → Except String Bytes) (s : Server) (fs : FS)
    (fileAddr : String) : GetResult :=
  let path := goFilepathJoin s.rootDir fileAddr
  match (if s.noCache then none else cacheLookup s.cache path) with
  | some data =>
    { status := 200, body := RespBody.bytes ctypeZip data,
      logs := [dbgGet, ⟨Level.info, msgCacheHit⟩], cache := s.cache,
      statCalls := 0, readCalls := 0, codecCalls := 0 }
  | none => getFileDisk zb s fs path

/-- The write loop of the in-repository codec unzipToDir: for each archive
entry, MkdirAll on the destination directory (only), then create or truncate
the entry path joined under the destination and write its bytes; the first
failure aborts the remaining entries, keeping what was already written. -/
def unzipEntries (dir : String) : FS → List File → FS × Option String
  | fs, [] => (fs, none)
  | fs, f :: rest =>
    match goMkdirAll fs dir with
    | (fs1, some e) => (fs1, some (unzipMkdirErr dir e))
    | (fs1, none) =>
      let p := goFilepathJoin dir f.name
      match goWriteNewFile fs1 p f.data with
      | (fs2, some e) => (fs2, some (unzipOpenErr p e))
      | (fs2, none) => unzipEntries dir fs2 rest

/-- The in-repository archive codec unzipToDir: parse the archive bytes,
then write every entry under the destination directory. -/
def unzipToDir (fs : FS) (dir : String) (zipData : ZipData) : FS × Option String :=
  match zipData with
  | ZipData.malformed e => (fs, some (unzipReadErr e))
  | ZipData.entries files => unzipEntries dir fs files

/-- Result of one uploadFile request: whether the handler panicked (Go slice
bounds violation), the response writes in order, the log events, and the
filesystem and cache after the request. -/
structure UploadResult where
  panicked : Bool
  writes : List RespWrite
  logs : List LogEvent
  fs : FS
  cache : Cache
deriving DecidableEq, Repr

/-- The uploadFile handler.  The request body bytes are given both raw and as
seen by the zip parser (`zipData`); the branch on the content-type header
decides which view is used.  The zip-failure branch of the source has no
return statement, so its error write is followed by the success log and the
success confirmation write.  The raw branch slices the resolved path at the
last slash before MkdirAll; when the path has no slash the Go slice bound is
-1 and the handler panics. -/
def uploadFile (s : Server) (fs : FS) (destAddr contentType : String)
    (rawBody : Bytes) (zipData : ZipData) : UploadResult :=
  let path := goFilepathJoin s.rootDir destAddr
  if contentType = ctypeZip then
    if s.noDirs then
      { panicked := false,
        writes := [⟨400, RespBody.text msgNoDirsUpload⟩],
        logs := [dbgUpload, ⟨Level.warn, msgNoDirsUpload⟩],
        fs := fs, cache := s.cache }
    else
      match unzipToDir fs path zipData with
      | (fs1, some e) =>
        { panicked := false,
          writes := [⟨400, RespBody.text e⟩,
                     ⟨200, RespBody.text (successUploadBody path)⟩],
          logs := [dbgUpload, ⟨Level.warn, msgFailedUnzipWarn⟩,
                   ⟨Level.info, msgUploadOk⟩],
          fs := fs1, cache := s.cache }
      | (fs1, none) =>
        { panicked := false,
          writes := [⟨200, RespBody.text (successUploadBody path)⟩],
          logs := [dbgUpload, ⟨Level.info, msgUploadOk⟩],
          fs := fs1, cache := s.cache }
  else
    match beforeLastSlash path with
    | none =>
      { panicked := true, writes := [], logs := [dbgUpload],
        fs := fs, cache := s.cache }
    | some dir =>
      match goMkdirAll fs dir with
      | (fs1, some e) =>
        { panicked := false,
          writes := [⟨400, RespBody.text (failedMkdirBody dir e)⟩],
          logs := [dbgUpload, ⟨Level.warn, msgFailedMkdirWarn⟩],
          fs := fs1, cache := s.cache }
      | (fs1, none) =>
        match goWriteNewFile fs1 path rawBody with
        | (fs2, some e) =>
          { panicked := false,
            writes := [⟨400, RespBody.text (failedOpenBody path e)⟩],
            logs := [dbgUpload, ⟨Level.warn, msgFailedOpenWarn⟩],
            fs := fs2, cache := s.cache }
        | (fs2, none) =>
          { panicked := false,
            writes := [⟨200, RespBody.text (successUploadBody path)⟩],
            logs := [dbgUpload, ⟨Level.info, msgUploadOk⟩],
            fs := fs2, cache := s.cache }

structure EntriesResult where
  status : Nat
  body : String
  logs : List LogEvent
deriving DecidableEq, Repr

def joinCommas : List String → String
  | [] => ""
  | [c] => c
  | c :: rest => c ++ "," ++ joinCommas rest

/-- The getEntries handler: list the names of the entries of the resolved
directory, comma-joined.  It never touches the cache or the filesystem. -/
def getEntries (s : Server) (fs : FS) (relPath : String) : EntriesResult :=
  let path := goFilepathJoin s.rootDir relPath
  match fs.readDir (compsOf path) with
  | Except.error e =>
    { status := 400, body := failedEntriesBody path (statErrString path e),
      logs := [⟨Level.warn, msgEntriesWarn⟩] }
  | Except.ok names =>
    { status := 200, body := joinCommas names,
      logs := [⟨Level.info, msgEntriesOk⟩] }

/-- Server construction options (the address, port and log level fields of
the source are consumed only by the HTTP listener and the log-level filter,
which are outside the model). -/
structure Opts where
  rootDir : String
  logFile : String
  noCache : Bool
  noDirectories : Bool
deriving DecidableEq, Repr

/-- createLogWriter: with no log file configured, nothing touches the
filesystem; otherwise create the directories of the log file path and open
or create the log file for appending. -/
def createLogWriter (fs : FS) (logFile : String) : FS × Option String :=
  if logFile = "" then (fs, none)
  else
    let dir := goFilepathSplitDir logFile
    match goMkdirAll fs dir with
    | (fs1, some e) => (fs1, some (unzipMkdirErr dir e))
    | (fs1, none) =>
      match goOpenAppendCreate fs1 logFile with
      | (fs2, some e) =>
        (fs2, some ("failed to open file \x27" ++ logFile ++ "\x27: " ++ e))
      | (fs2, none) => (fs2, none)

def notDirRootBody (dir : String) : String :=
  "rootDir \x27" ++ dir ++ "\x27 is not directory"

def failedCreateDirBody (dir err : String) : String :=
  "failed to create dir \x27" ++ dir ++ "\x27: " ++ err

/-- checkIsDir: stat the root directory; create it (and missing parents) when
it does not exist; reject it when it exists and is not a directory; return
the stat error itself for any other stat failure. -/
def checkIsDir (fs : FS) (dir : String) : FS × Option String :=
  match goStat fs dir with
  | Except.error StatErr.notExist =>
    match goMkdirAll fs dir with
    | (fs1, some e) => (fs1, some (failedCreateDirBody dir e))
    | (fs1, none) => (fs1, none)
  | Except.error StatErr.notDir => (fs, some (statErrString dir StatErr.notDir))
  | Except.ok FsNode.dir => (fs, none)
  | Except.ok (FsNode.file _) => (fs, some (notDirRootBody dir))

def failedLoggerMsg (e : String) : String :=
  "failed to create logger: " ++ e

def failedRootMsg (e : String) : String :=
  "failed to read root dir: " ++ e

/-- Server construction (Create of the richer variant): build the logger,
check or create the root directory, then return the server value with an
empty cache.  Construction performs no network activity. -/
def Create (fs : FS) (opts : Opts) : Except String (Server × FS) :=
  match createLogWriter fs opts.logFile with
  | (_, some e) => Except.error (failedLoggerMsg e)
  | (fs1, none) =>
    match checkIsDir fs1 opts.rootDir with
    | (_, some e) => Except.error (failedRootMsg e)
    | (fs2, none) =>
      Except.ok ({ rootDir := opts.rootDir, cache := [],
                   noCache := opts.noCache, noDirs := opts.noDirectories }, fs2)

/-- One inbound request of the richer route layout. -/
inductive Req
  | getContent (addr : String)
  | postContent (addr ctype : String) (raw : Bytes) (zip : ZipData)
  | listEntries (addr : String)
deriving DecidableEq, Repr

/-- The server and filesystem state after handling one request: getFile may
update the cache, uploadFile may update the filesystem (its cache field is
the unchanged input cache), getEntries changes neither. -/
def stepServer (zb : FS → String → Except String Bytes) (s : Server) (fs : FS) :
    Req → Server × FS
  | Req.getContent addr =>
    ({ s with cache := (getFile zb s fs addr).cache }, fs)
  | Req.postContent addr ctype raw zip =>
    let r := uploadFile s fs addr ctype raw zip
    ({ s with cache := r.cache }, r.fs)
  | Req.listEntries _ => (s, fs)

/-! Concrete inputs used by the closed theorems and the witnesses. -/

def rootR0 : String := "r0"

def rootR1 : String := "r1"

def rootFiles : String := "files"

def addrD : String := "/d"

def addrSlash : String := "/"

def addrX : String := "/x"

def ctypeText : String := "text/plain"

def nameA : String := "a.txt"

def nameSubB : String := "sub/b.txt"

def nameSubC : String := "sub/c.txt"

def helloBytes : Bytes := [104, 101, 108, 108, 111]

def worldBytes : Bytes := [119, 111, 114, 108, 100]

def pathR0DA : String := "r0/d/a.txt"

def pathR0DSubB : String := "r0/d/sub/b.txt"

def pathR1D : String := "r1/d"

def pathR1DSubC : String := "r1/d/sub/c.txt"

def fsR0 : FS := ⟨[(compsOf rootR0, FsNode.dir)]⟩

def srvR0 : Server := { rootDir := rootR0, cache := [], noCache := false, noDirs := false }

def zipNested : ZipData := ZipData.entries [⟨nameA, helloBytes⟩, ⟨nameSubB, worldBytes⟩]

def fsR1 : FS := ⟨[(compsOf rootR1, FsNode.dir)]⟩

def srvR1 : Server := { rootDir := rootR1, cache := [], noCache := false, noDirs := false }

def zipFailing : ZipData := ZipData.entries [⟨nameSubC, worldBytes⟩]

def fsFiles : FS := ⟨[(compsOf rootFiles, FsNode.dir)]⟩

def srvFiles : Server := { rootDir := rootFiles, cache := [], noCache := false, noDirs := false }

/-- C1: uploading a zip archive with entries a.txt and sub/b.txt (contents
"hello" and "world") to destination d is claimed to create every missing
intermediate directory and leave both files in place.  On the code, the codec
only ever runs MkdirAll on the destination directory itself, so the parent
directory of the nested entry is never created: the first entry a.txt is
written, the nested entry sub/b.txt fails to open, the upload aborts, the
first response write carries status 400, and d/sub/b.txt does not exist. -/
theorem upload_zip_nested_entry_not_created :
    (uploadFile srvR0 fsR0 addrD ctypeZip [] zipNested).fs.nodeAt (compsOf pathR0DSubB) = none ∧
    (uploadFile srvR0 fsR0 addrD ctypeZip [] zipNested).fs.nodeAt (compsOf pathR0DA) =
      some (FsNode.file helloBytes) ∧
    (uploadFile srvR0 fsR0 addrD ctypeZip [] zipNested).writes.map RespWrite.status =
      [400, 200] := by
  decide

/-- C3: when archive extraction fails on an entry, the handler is claimed to
emit no success confirmation and no Info log.  On the code, the zip-error
branch has no return statement, so after the 400 error write the handler
falls through to the success branch: the success confirmation is appended as
a second response write and the Info success event is logged after the Warn
event. -/
theorem upload_zip_failure_emits_success_confirmation :
    (uploadFile srvR1 fsR1 addrD ctypeZip [] zipFailing).writes =
      [⟨400, RespBody.text (unzipOpenErr pathR1DSubC ("open " ++ pathR1DSubC ++ errNoSuchFile))⟩,
       ⟨200, RespBody.text (successUploadBody pathR1D)⟩] ∧
    (uploadFile srvR1 fsR1 addrD ctypeZip [] zipFailing).logs =
      [dbgUpload, ⟨Level.warn, msgFailedUnzipWarn⟩, ⟨Level.info, msgUploadOk⟩] := by
  decide

/-- C10: an upload whose content type is not application/zip and whose
resolved destination path contains no slash (relative root directory "files"
joined with destination "/" resolves to "files") slices the path at index
-1: the handler panics before writing any response. -/
theorem upload_raw_no_slash_panics :
    (uploadFile srvFiles fsFiles addrSlash ctypeText [104] (ZipData.entries [])).panicked = true ∧
    (uploadFile srvFiles fsFiles addrSlash ctypeText [104] (ZipData.entries [])).writes = [] := by
  decide

/-- C2: with caching enabled and the resolved path present in the cache, the
getFile handler returns HTTP 200 with exactly the cached bytes and content
type application/zip (whatever the cached payload originally was), logs the
Info cache-hit event after the Debug event, leaves the cache unchanged, and
performs no stat, no disk read and no archive-codec call. -/
theorem getFile_cache_hit (zb : FS → String → Except String Bytes) (s : Server)
    (fs : FS) (addr : String) (data : Bytes)
    (hnc : s.noCache = false)
    (hhit : cacheLookup s.cache (goFilepathJoin s.rootDir addr) = some data) :
    getFile zb s fs addr =
      { status := 200, body := RespBody.bytes ctypeZip data,
        logs := [dbgGet, ⟨Level.info, msgCacheHit⟩], cache := s.cache,
        statCalls := 0, readCalls := 0, codecCalls := 0 } := by
  simp [getFile, hnc, hhit]

def zbConst : FS → String → Except String Bytes := fun _ _ => Except.ok ([80, 75] : Bytes)

def cachedRaw : Bytes := [1, 2, 3]

def pathR0X : String := "r0/x"

def srvHit : Server :=
  { rootDir := rootR0, cache := [(pathR0X, cachedRaw)], noCache := false, noDirs := false }

theorem getFile_cache_hit_witness :
    getFile zbConst srvHit fsR0 addrX =
      { status := 200, body := RespBody.bytes ctypeZip cachedRaw,
        logs := [dbgGet, ⟨Level.info, msgCacheHit⟩], cache := srvHit.cache,
        statCalls := 0, readCalls := 0, codecCalls := 0 } :=
  getFile_cache_hit zbConst srvHit fsR0 addrX cachedRaw (by decide) (by decide)

/-- C7: with directory serving disabled, a getFile request that is not served
from the cache and whose resolved path stats as a directory is rejected with
HTTP 400 and the message naming the path as a directory under the noDirs
flag, the Warn event is logged, the cache is unchanged, and the archive codec
is never invoked. -/
theorem getFile_dir_noDirs_rejected (zb : FS → String → Except String Bytes)
    (s : Server) (fs : FS) (addr : String)
    (hnd : s.noDirs = true)
    (hmiss : (if s.noCache then none
              else cacheLookup s.cache (goFilepathJoin s.rootDir addr)) = (none : Option Bytes))
    (hdir : goStat fs (goFilepathJoin s.rootDir addr) = Except.ok FsNode.dir) :
    getFile zb s fs addr =
      { status := 400,
        body := RespBody.text (noDirsGetBody (goFilepathJoin s.rootDir addr)),
        logs := [dbgGet, ⟨Level.warn, msgNoDirsGetWarn⟩], cache := s.cache,
        statCalls := 1, readCalls := 0, codecCalls := 0 } := by
  simp [getFile, hmiss, getFileDisk, hdir, hnd]

def srvNoDirs : Server := { rootDir := rootR0, cache := [], noCache := false, noDirs := true }

theorem getFile_dir_noDirs_rejected_witness :
    getFile zbConst srvNoDirs fsR0 addrSlash =
      { status := 400,
        body := RespBody.text (noDirsGetBody (goFilepathJoin rootR0 addrSlash)),
        logs := [dbgGet, ⟨Level.warn, msgNoDirsGetWarn⟩], cache := [],
        statCalls := 1, readCalls := 0, codecCalls := 0 } :=
  getFile_dir_noDirs_rejected zbConst srvNoDirs fsR0 addrSlash (by decide) (by decide) (by rfl)

/-- C8: a getFile request that is not served from the cache and whose
resolved path fails to stat is rejected with HTTP 400, the body is the error
text built from the resolved path and the underlying stat error, the Warn
event is logged, the cache is unchanged, and no disk read or codec call is
performed after the stat. -/
theorem getFile_stat_error_rejected (zb : FS → String → Except String Bytes)
    (s : Server) (fs : FS) (addr : String) (e : StatErr)
    (hmiss : (if s.noCache then none
              else cacheLookup s.cache (goFilepathJoin s.rootDir addr)) = (none : Option Bytes))
    (hstat : goStat fs (goFilepathJoin s.rootDir addr) = Except.error e) :
    getFile zb s fs addr =
      { status := 400,
        body := RespBody.text (failedReadBody (goFilepathJoin s.rootDir addr) e),
        logs := [dbgGet, ⟨Level.warn, msgFailedReadWarn⟩], cache := s.cache,
        statCalls := 1, readCalls := 0, codecCalls := 0 } := by
  simp [getFile, hmiss, getFileDisk, hstat]

def addrMissing : String := "/missing"

theorem getFile_stat_error_rejected_witness :
    getFile zbConst srvR0 fsR0 addrMissing =
      { status := 400,
        body := RespBody.text (failedReadBody (goFilepathJoin rootR0 addrMissing) StatErr.notExist),
        logs := [dbgGet, ⟨Level.warn, msgFailedReadWarn⟩], cache := [],
        statCalls := 1, readCalls := 0, codecCalls := 0 } :=
  getFile_stat_error_rejected zbConst srvR0 fsR0 addrMissing StatErr.notExist (by decide) (by rfl)

/-- The uploadFile handler never reads or writes the response cache: its
resulting cache is the input cache on every control path. -/
theorem uploadFile_cache_eq (s : Server) (fs : FS) (destAddr contentType : String)
    (rawBody : Bytes) (zipData : ZipData) :
    (uploadFile s fs destAddr contentType rawBody zipData).cache = s.cache := by
  simp only [uploadFile]
  repeat' split
  all_goals rfl

theorem cacheLookup_insert_self (c : Cache) (k : String) (v : Bytes) :
    cacheLookup (cacheInsert c k v) k = some v := by
  simp [cacheLookup, cacheInsert]

/-- C5: an upload leaves every existing cache entry unchanged, including the
entry keyed by its own resolved destination path; a getFile request for the
same address issued right after the upload (caching enabled) is therefore
served the pre-upload cached bytes, whatever the upload wrote to disk. -/
theorem upload_preserves_cache_stale_read (zb : FS → String → Except String Bytes)
    (s : Server) (fs : FS) (destAddr contentType : String) (rawBody : Bytes)
    (zipData : ZipData) (old : Bytes)
    (hnc : s.noCache = false)
    (hold : cacheLookup s.cache (goFilepathJoin s.rootDir destAddr) = some old) :
    (uploadFile s fs destAddr contentType rawBody zipData).cache = s.cache ∧
    (getFile zb
        { rootDir := s.rootDir,
          cache := (uploadFile s fs destAddr contentType rawBody zipData).cache,
          noCache := s.noCache, noDirs := s.noDirs }
        (uploadFile s fs destAddr contentType rawBody zipData).fs destAddr).body =
      RespBody.bytes ctypeZip old := by
  have hc := uploadFile_cache_eq s fs destAddr contentType rawBody zipData
  refine ⟨hc, ?_⟩
  rw [hc]
  simp [getFile, hnc, hold]

def newBytes : Bytes := [7, 7, 7]

theorem upload_preserves_cache_stale_read_witness :
    (uploadFile srvHit fsR0 addrX ctypeText newBytes (ZipData.entries [])).cache = srvHit.cache ∧
    (getFile zbConst
        { rootDir := srvHit.rootDir,
          cache := (uploadFile srvHit fsR0 addrX ctypeText newBytes (ZipData.entries [])).cache,
          noCache := srvHit.noCache, noDirs := srvHit.noDirs }
        (uploadFile srvHit fsR0 addrX ctypeText newBytes (ZipData.entries [])).fs addrX).body =
      RespBody.bytes ctypeZip cachedRaw :=
  upload_preserves_cache_stale_read zbConst srvHit fsR0 addrX ctypeText newBytes
    (ZipData.entries []) cachedRaw (by decide) (by decide)

/-- C4: fetching the same directory twice with caching enabled and no
intervening writes answers both requests with HTTP 200 and byte-identical
bodies, invokes the archive codec only on the first request, and after the
first request the cache maps the resolved path to exactly the served bytes
(a fresh synthesis overwrites any prior entry for that key). -/
theorem getFile_dir_twice_cached (zb : FS → String → Except String Bytes)
    (s : Server) (fs : FS) (addr : String) (data : Bytes)
    (hnc : s.noCache = false)
    (hnd : s.noDirs = false)
    (hdir : goStat fs (goFilepathJoin s.rootDir addr) = Except.ok FsNode.dir)
    (hzip : zb fs (goFilepathJoin s.rootDir addr) = Except.ok data) :
    (getFile zb s fs addr).status = 200 ∧
    (getFile zb { s with cache := (getFile zb s fs addr).cache } fs addr).status = 200 ∧
    (getFile zb { s with cache := (getFile zb s fs addr).cache } fs addr).body =
      (getFile zb s fs addr).body ∧
    (getFile zb { s with cache := (getFile zb s fs addr).cache } fs addr).codecCalls = 0 ∧
    ∃ b, (getFile zb s fs addr).body = RespBody.bytes ctypeZip b ∧
      cacheLookup (getFile zb s fs addr).cache (goFilepathJoin s.rootDir addr) = some b := by
  cases hlk : cacheLookup s.cache (goFilepathJoin s.rootDir addr) with
  | none =>
    have h1 : getFile zb s fs addr =
        { status := 200, body := RespBody.bytes ctypeZip data,
          logs := [dbgGet, ⟨Level.info, msgDirServed⟩],
          cache := cacheInsert s.cache (goFilepathJoin s.rootDir addr) data,
          statCalls := 1, readCalls := 0, codecCalls := 1 } := by
      simp [getFile, hnc, hlk, getFileDisk, hdir, hnd, hzip]
    have h2 := cacheLookup_insert_self s.cache (goFilepathJoin s.rootDir addr) data
    refine ⟨by rw [h1], ?_, ?_, ?_, data, by rw [h1], by rw [h1]; exact h2⟩ <;>
      rw [h1] <;> simp [getFile, hnc, h2]
  | some c0 =>
    have h1 : getFile zb s fs addr =
        { status := 200, body := RespBody.bytes ctypeZip c0,
          logs := [dbgGet, ⟨Level.info, msgCacheHit⟩], cache := s.cache,
          statCalls := 0, readCalls := 0, codecCalls := 0 } := by
      simp [getFile, hnc, hlk]
    refine ⟨by rw [h1], ?_, ?_, ?_, c0, by rw [h1], by rw [h1]; exact hlk⟩ <;>
      rw [h1] <;> simp [getFile, hnc, hlk]

def fsDir : FS := ⟨[(compsOf rootR0, FsNode.dir), (compsOf pathR0X, FsNode.dir)]⟩

theorem getFile_dir_twice_cached_witness :
    (getFile zbConst srvR0 fsDir addrX).status = 200 ∧
    (getFile zbConst { srvR0 with cache := (getFile zbConst srvR0 fsDir addrX).cache } fsDir addrX).status = 200 ∧
    (getFile zbConst { srvR0 with cache := (getFile zbConst srvR0 fsDir addrX).cache } fsDir addrX).body =
      (getFile zbConst srvR0 fsDir addrX).body ∧
    (getFile zbConst { srvR0 with cache := (getFile zbConst srvR0 fsDir addrX).cache } fsDir addrX).codecCalls = 0 ∧
    ∃ b, (getFile zbConst srvR0 fsDir addrX).body = RespBody.bytes ctypeZip b ∧
      cacheLookup (getFile zbConst srvR0 fsDir addrX).cache (goFilepathJoin rootR0 addrX) = some b :=
  getFile_dir_twice_cached zbConst srvR0 fsDir addrX ([80, 75] : Bytes)
    (by decide) (by decide) (by rfl) (by rfl)

theorem mem_cacheKeys_insert (a k : String) (v : Bytes) (c : Cache) :
    a ∈ cacheKeys (cacheInsert c k v) ↔ a = k ∨ a ∈ cacheKeys c := by
  simp only [cacheKeys, cacheInsert, List.map_cons, List.mem_cons, List.mem_map,
    List.mem_filter]
  constructor
  · rintro (h | ⟨e, ⟨he, _⟩, rfl⟩)
    · exact Or.inl h
    · exact Or.inr ⟨e, he, rfl⟩
  · rintro (h | ⟨e, he, rfl⟩)
    · exact Or.inl h
    · by_cases hek : e.1 = k
      · exact Or.inl hek
      · exact Or.inr ⟨e, ⟨he, by simpa using hek⟩, rfl⟩

/-- Control-path summary of getFile's effect on the cache: either the cache
is returned unchanged, or caching is enabled and a fresh successful read or
zip synthesis inserted the served bytes at the resolved path. -/
theorem getFile_cache_spec (zb : FS → String → Except String Bytes) (s : Server)
    (fs : FS) (addr : String) :
    (getFile zb s fs addr).cache = s.cache ∨
    (s.noCache = false ∧ (getFile zb s fs addr).status = 200 ∧
      (getFile zb s fs addr).statCalls = 1 ∧
      ∃ ct data, (getFile zb s fs addr).body = RespBody.bytes ct data ∧
        (getFile zb s fs addr).cache =
          cacheInsert s.cache (goFilepathJoin s.rootDir addr) data ∧
        ((getFile zb s fs addr).readCalls = 1 ∨ (getFile zb s fs addr).codecCalls = 1)) := by
  by_cases hnc : s.noCache = true
  · left
    simp only [getFile, hnc, if_true]
    unfold getFileDisk
    repeat' split
    all_goals simp [hnc]
  · replace hnc : s.noCache = false := by simpa using hnc
    cases hlk : cacheLookup s.cache (goFilepathJoin s.rootDir addr) with
    | some c0 => left; simp [getFile, hnc, hlk]
    | none =>
      have hg : getFile zb s fs addr =
          getFileDisk zb s fs (goFilepathJoin s.rootDir addr) := by
        simp [getFile, hnc, hlk]
      rw [hg]
      unfold getFileDisk
      cases hst : goStat fs (goFilepathJoin s.rootDir addr) with
      | error e => left; simp
      | ok node =>
        cases node with
        | file data =>
          right
          refine ⟨hnc, ?_, ?_, ctypeRaw, data, ?_, ?_, Or.inl ?_⟩ <;> simp [hnc]
        | dir =>
          by_cases hnd : s.noDirs = true
          · left; simp [hnd]
          · replace hnd : s.noDirs = false := by simpa using hnd
            cases hz : zb fs (goFilepathJoin s.rootDir addr) with
            | error e => left; simp [hnd, hz]
            | ok data =>
              right
              refine ⟨hnc, ?_, ?_, ctypeZip, data, ?_, ?_, Or.inr ?_⟩ <;>
                simp [hnd, hz, hnc]

/-- C6: handling any single request can only grow the set of cache keys
(no request removes an entry), and any key that is new after the request was
inserted by a get-content request, with caching enabled, that went to disk
(one stat call) and succeeded with HTTP 200, the new key being the resolved
path and the cached bytes being exactly the served body. -/
theorem cache_monotone_provenance (zb : FS → String → Except String Bytes)
    (s : Server) (fs : FS) (req : Req) (k j : String)
    (hk : k ∈ cacheKeys ((stepServer zb s fs req).1.cache))
    (hj : j ∈ cacheKeys s.cache) :
    j ∈ cacheKeys ((stepServer zb s fs req).1.cache) ∧
    (k ∈ cacheKeys s.cache ∨
      ∃ addr, req = Req.getContent addr ∧ s.noCache = false ∧
        (getFile zb s fs addr).status = 200 ∧
        (getFile zb s fs addr).statCalls = 1 ∧
        ∃ ct data, (getFile zb s fs addr).body = RespBody.bytes ct data ∧
          k = goFilepathJoin s.rootDir addr ∧
          cacheLookup ((stepServer zb s fs req).1.cache) k = some data) := by
  cases req with
  | postContent addr ctype raw zip =>
    have hc : (stepServer zb s fs (Req.postContent addr ctype raw zip)).1.cache = s.cache := by
      simp [stepServer, uploadFile_cache_eq]
    rw [hc] at hk ⊢
    exact ⟨hj, Or.inl hk⟩
  | listEntries addr => exact ⟨hj, Or.inl hk⟩
  | getContent addr =>
    have hc : (stepServer zb s fs (Req.getContent addr)).1.cache =
        (getFile zb s fs addr).cache := rfl
    rw [hc] at hk ⊢
    rcases getFile_cache_spec zb s fs addr with heq |
      ⟨hnc, hst, hsc, ct, data, hbody, hins, hwork⟩
    · rw [heq] at hk ⊢
      exact ⟨hj, Or.inl hk⟩
    · rw [hins] at hk ⊢
      refine ⟨(mem_cacheKeys_insert j _ _ _).mpr (Or.inr hj), ?_⟩
      rcases (mem_cacheKeys_insert k _ _ _).mp hk with hkp | hkold
      · subst hkp
        exact Or.inr ⟨addr, rfl, hnc, hst, hsc, ct, data, hbody, rfl,
          cacheLookup_insert_self _ _ _⟩
      · exact Or.inl hkold

def reqGetRoot : Req := Req.getContent addrSlash

theorem cache_monotone_provenance_witness :
    pathR0X ∈ cacheKeys ((stepServer zbConst srvHit fsDir reqGetRoot).1.cache) ∧
    (goFilepathJoin rootR0 addrSlash ∈ cacheKeys srvHit.cache ∨
      ∃ addr, reqGetRoot = Req.getContent addr ∧ srvHit.noCache = false ∧
        (getFile zbConst srvHit fsDir addr).status = 200 ∧
        (getFile zbConst srvHit fsDir addr).statCalls = 1 ∧
        ∃ ct data, (getFile zbConst srvHit fsDir addr).body = RespBody.bytes ct data ∧
          goFilepathJoin rootR0 addrSlash = goFilepathJoin srvHit.rootDir addr ∧
          cacheLookup ((stepServer zbConst srvHit fsDir reqGetRoot).1.cache)
            (goFilepathJoin rootR0 addrSlash) = some data) :=
  cache_monotone_provenance zbConst srvHit fsDir reqGetRoot
    (goFilepathJoin rootR0 addrSlash) pathR0X (by decide) (by decide)

theorem nodeAt_cons (q : Comps) (n : FsNode) (es : List (Comps × FsNode)) (p : Comps) :
    FS.nodeAt ⟨(q, n) :: es⟩ p =
      if p = [] then some FsNode.dir
      else if q = p then some n else FS.nodeAt ⟨es⟩ p := by
  by_cases hp : p = []
  · simp [FS.nodeAt, hp]
  · by_cases hq : q = p <;> simp [FS.nodeAt, hp, hq, List.find?_cons]

/-- A directory survives any single MkdirAll step. -/
theorem nodeAt_mkdirOne_dir (fs : FS) (q p : Comps)
    (h : fs.nodeAt p = some FsNode.dir) :
    ((fs.mkdirOne q).1).nodeAt p = some FsNode.dir := by
  unfold FS.mkdirOne
  cases hq : fs.nodeAt q with
  | some n => cases n <;> simpa using h
  | none =>
    rw [nodeAt_cons]
    by_cases hp : p = []
    · simp [hp]
    · by_cases hqp : q = p
      · subst hqp; rw [hq] at h; cases h
      · simpa [hp, hqp] using h

/-- A successful MkdirAll step leaves its target as a directory. -/
theorem mkdirOne_ok_nodeAt (fs : FS) (q : Comps) (h : (fs.mkdirOne q).2 = none) :
    ((fs.mkdirOne q).1).nodeAt q = some FsNode.dir := by
  unfold FS.mkdirOne at h ⊢
  cases hq : fs.nodeAt q with
  | some n =>
    cases n with
    | dir => simpa using hq
    | file d => rw [hq] at h; cases h
  | none =>
    rw [nodeAt_cons]
    by_cases hqe : q = [] <;> simp [hqe]

/-- A directory survives a whole MkdirAll run. -/
theorem nodeAt_mkdirAllComps_dir (qs : List Comps) (fs : FS) (p : Comps)
    (h : fs.nodeAt p = some FsNode.dir) :
    ((fs.mkdirAllComps qs).1).nodeAt p = some FsNode.dir := by
  induction qs generalizing fs with
  | nil => simpa [FS.mkdirAllComps] using h
  | cons q rest ih =>
    unfold FS.mkdirAllComps
    have h1 := nodeAt_mkdirOne_dir fs q p h
    cases hm : fs.mkdirOne q with
    | mk fs1 err =>
      rw [hm] at h1
      cases err with
      | none => simpa using ih fs1 h1
      | some e => simpa using h1

/-- After a successful MkdirAll run, every path of the run is a directory. -/
theorem mkdirAllComps_ok_nodeAt (qs : List Comps) (fs : FS) (q : Comps)
    (hq : q ∈ qs) (h : (fs.mkdirAllComps qs).2 = none) :
    ((fs.mkdirAllComps qs).1).nodeAt q = some FsNode.dir := by
  induction qs generalizing fs with
  | nil => cases hq
  | cons q0 rest ih =>
    unfold FS.mkdirAllComps at h ⊢
    cases hm : fs.mkdirOne q0 with
    | mk fs1 err =>
      rw [hm] at h
      cases err with
      | some e => simp at h
      | none =>
        rcases List.mem_cons.mp hq with heq | hmem
        · have h2 : ((fs.mkdirOne q0).1).nodeAt q0 = some FsNode.dir :=
            mkdirOne_ok_nodeAt fs q0 (by rw [hm])
          rw [hm] at h2
          rw [heq]
          exact nodeAt_mkdirAllComps_dir rest fs1 q0 h2
        · exact ih fs1 hmem h

theorem mem_allPrefixes_self (p : Comps) (hp : p ≠ []) : p ∈ allPrefixes p := by
  have hl : 0 < p.length := List.length_pos.mpr hp
  refine List.mem_map.mpr ⟨p.length - 1, List.mem_range.mpr ?_, ?_⟩
  · omega
  · rw [Nat.sub_add_cancel hl, List.take_length]

theorem properPrefixes_subset (p q : Comps) (hq : q ∈ properPrefixes p) :
    q ∈ allPrefixes p := by
  rcases List.mem_map.mp hq with ⟨i, hi, rfl⟩
  exact List.mem_map.mpr
    ⟨i, List.mem_range.mpr (lt_of_lt_of_le (List.mem_range.mp hi) (Nat.sub_le _ _)), rfl⟩

/-- When MkdirAll succeeds on a path that did not exist, the path afterwards
stats as a directory. -/
theorem goStat_after_goMkdirAll (fs : FS) (s : String)
    (hs : goStat fs s = Except.error StatErr.notExist)
    (h : (goMkdirAll fs s).2 = none) :
    goStat (goMkdirAll fs s).1 s = Except.ok FsNode.dir := by
  by_cases hse : s = ""
  · subst hse
    exact Option.noConfusion h
  · have hp : compsOf s ≠ [] := by
      intro hp0
      rw [goStat, if_neg hse, hp0] at hs
      simp [FS.stat, properPrefixes, FS.nodeAt] at hs
    rw [goStat, if_neg hse]
    unfold goMkdirAll at h ⊢
    simp only [if_neg hp] at h ⊢
    have hall : ∀ q ∈ allPrefixes (compsOf s),
        ((fs.mkdirAllComps (allPrefixes (compsOf s))).1).nodeAt q = some FsNode.dir :=
      fun q hq => mkdirAllComps_ok_nodeAt _ fs q hq h
    unfold FS.stat
    have hany : ((properPrefixes (compsOf s)).any
        (fun q => isFileNode ((fs.mkdirAllComps (allPrefixes (compsOf s))).1.nodeAt q))) = false := by
      rw [List.any_eq_false]
      intro q hq
      rw [hall q (properPrefixes_subset _ q hq)]
      simp [isFileNode]
    rw [hany]
    simp only [Bool.false_eq_true, if_false]
    rw [hall (compsOf s) (mem_allPrefixes_self _ hp)]

/-- C9: with the logger step succeeding (logging setup is an external
collaborator), server construction succeeds exactly when the root directory
stats as a directory or does not exist and MkdirAll can create it; on
success the root is afterwards a directory on the resulting filesystem (in
particular an absent-but-creatable root is created); on failure the error
message extends "failed to read root dir: ". -/
theorem Create_root_dir_cases (fs fs1 : FS) (opts : Opts)
    (hlog : createLogWriter fs opts.logFile = (fs1, none)) :
    ((∃ srv fs2, Create fs opts = Except.ok (srv, fs2)) ↔
      (goStat fs1 opts.rootDir = Except.ok FsNode.dir ∨
        (goStat fs1 opts.rootDir = Except.error StatErr.notExist ∧
          (goMkdirAll fs1 opts.rootDir).2 = none))) ∧
    (∀ srv fs2, Create fs opts = Except.ok (srv, fs2) →
      goStat fs2 opts.rootDir = Except.ok FsNode.dir) ∧
    (∀ e, Create fs opts = Except.error e → ∃ rest, e = failedRootMsg rest) := by
  cases hst : goStat fs1 opts.rootDir with
  | ok node =>
    cases node with
    | dir =>
      have hchk : checkIsDir fs1 opts.rootDir = (fs1, none) := by
        simp [checkIsDir, hst]
      have hCr : Create fs opts =
          Except.ok ((⟨opts.rootDir, [], opts.noCache, opts.noDirectories⟩ : Server), fs1) := by
        simp [Create, hlog, hchk]
      refine ⟨⟨fun _ => Or.inl rfl, fun _ => ⟨_, fs1, hCr⟩⟩, ?_, ?_⟩
      · intro srv fs2 hee
        rw [hCr] at hee
        injection hee with hp
        injection hp with h1 h2
        rw [← h2]
        exact hst
      · intro e hee
        rw [hCr] at hee
        exact Except.noConfusion hee
    | file d =>
      have hchk : checkIsDir fs1 opts.rootDir = (fs1, some (notDirRootBody opts.rootDir)) := by
        simp [checkIsDir, hst]
      have hCr : Create fs opts =
          Except.error (failedRootMsg (notDirRootBody opts.rootDir)) := by
        simp [Create, hlog, hchk]
      refine ⟨⟨?_, ?_⟩, ?_, ?_⟩
      · rintro ⟨srv, fs2, hee⟩
        rw [hCr] at hee
        exact Except.noConfusion hee
      · rintro (hee | ⟨hee, _⟩)
        · injection hee with hn
          exact FsNode.noConfusion hn
        · exact Except.noConfusion hee
      · intro srv fs2 hee
        rw [hCr] at hee
        exact Except.noConfusion hee
      · intro e hee
        rw [hCr] at hee
        injection hee with hee
        exact ⟨_, hee.symm⟩
  | error se =>
    cases se with
    | notDir =>
      have hchk : checkIsDir fs1 opts.rootDir =
          (fs1, some (statErrString opts.rootDir StatErr.notDir)) := by
        simp [checkIsDir, hst]
      have hCr : Create fs opts =
          Except.error (failedRootMsg (statErrString opts.rootDir StatErr.notDir)) := by
        simp [Create, hlog, hchk]
      refine ⟨⟨?_, ?_⟩, ?_, ?_⟩
      · rintro ⟨srv, fs2, hee⟩
        rw [hCr] at hee
        exact Except.noConfusion hee
      · rintro (hee | ⟨hee, _⟩)
        · exact Except.noConfusion hee
        · injection hee with hn
          exact StatErr.noConfusion hn
      · intro srv fs2 hee
        rw [hCr] at hee
        exact Except.noConfusion hee
      · intro e hee
        rw [hCr] at hee
        injection hee with hee
        exact ⟨_, hee.symm⟩
    | notExist =>
      cases hmk : goMkdirAll fs1 opts.rootDir with
      | mk fsm err =>
        cases err with
        | none =>
          have hchk : checkIsDir fs1 opts.rootDir = (fsm, none) := by
            simp [checkIsDir, hst, hmk]
          have hCr : Create fs opts =
              Except.ok ((⟨opts.rootDir, [], opts.noCache, opts.noDirectories⟩ : Server), fsm) := by
            simp [Create, hlog, hchk]
          refine ⟨⟨fun _ => Or.inr ⟨rfl, rfl⟩, fun _ => ⟨_, fsm, hCr⟩⟩, ?_, ?_⟩
          · intro srv fs2 hee
            rw [hCr] at hee
            injection hee with hp
            injection hp with h1 h2
            rw [← h2]
            have h3 := goStat_after_goMkdirAll fs1 opts.rootDir hst (by rw [hmk])
            rw [hmk] at h3
            exact h3
          · intro e hee
            rw [hCr] at hee
            exact Except.noConfusion hee
        | some e0 =>
          have hchk : checkIsDir fs1 opts.rootDir =
              (fsm, some (failedCreateDirBody opts.rootDir e0)) := by
            simp [checkIsDir, hst, hmk]
          have hCr : Create fs opts =
              Except.error (failedRootMsg (failedCreateDirBody opts.rootDir e0)) := by
            simp [Create, hlog, hchk]
          refine ⟨⟨?_, ?_⟩, ?_, ?_⟩
          · rintro ⟨srv, fs2, hee⟩
            rw [hCr] at hee
            exact Except.noConfusion hee
          · rintro (hee | ⟨_, hee⟩)
            · exact Except.noConfusion hee
            · exact Option.noConfusion hee
          · intro srv fs2 hee
            rw [hCr] at hee
            exact Except.noConfusion hee
          · intro e hee
            rw [hCr] at hee
            injection hee with hee
            exact ⟨_, hee.symm⟩

def optsR0 : Opts := { rootDir := rootR0, logFile := "", noCache := false, noDirectories := false }

theorem Create_root_dir_cases_witness :
    ((∃ srv fs2, Create fsR0 optsR0 = Except.ok (srv, fs2)) ↔
      (goStat fsR0 optsR0.rootDir = Except.ok FsNode.dir ∨
        (goStat fsR0 optsR0.rootDir = Except.error StatErr.notExist ∧
          (goMkdirAll fsR0 optsR0.rootDir).2 = none))) ∧
    (∀ srv fs2, Create fsR0 optsR0 = Except.ok (srv, fs2) →
      goStat fs2 optsR0.rootDir = Except.ok FsNode.dir) ∧
    (∀ e, Create fsR0 optsR0 = Except.error e → ∃ rest, e = failedRootMsg rest) :=
  Create_root_dir_cases fsR0 fsR0 optsR0 (by rfl)

end Gofs
